import Mathlib

set_option maxHeartbeats 1000000

/-
  Verification development for the pcb-to-stencil repository
  (Gerber RS-274X parser + rasterizer in gerber.go, RLE mesh extruder in main.go).
  Go float64 values are modelled as exact rationals; Go ints as unbounded Int.
  Text is modelled as lists of characters.
-/

namespace PCB

/-- Model of Go `int(f)` conversion from float64: truncation toward zero. -/
def qtrunc (q : ℚ) : Int := if 0 ≤ q then ⌊q⌋ else ⌈q⌉

/-- Model of Go integer division `a / b` (truncates toward zero). -/
def idiv (a b : Int) : Int := Int.tdiv a b

/-- Model of Go `math.Mod x y`: `x - y*trunc(x/y)`, result has the sign of `x`. -/
def qmod (x y : ℚ) : ℚ := x - y * qtrunc (x / y)

/-- Numeric value of a list of decimal digit characters. -/
def natOfDigits (l : List Char) : Nat :=
  l.foldl (fun n c => 10 * n + (c.toNat - '0'.toNat)) 0

/-- Model of Go `strconv.ParseFloat` restricted to plain decimal forms
`[+-]?digits[.digits]` (with at least one digit). Exponent, hex, Inf and NaN
forms cannot be represented in the rational model and are out of scope of the
inputs this program feeds to ParseFloat. Returns `none` where Go returns a
syntax error. -/
def parseDecimal (t : List Char) : Option ℚ :=
  let intPart := t.takeWhile Char.isDigit
  let rest := t.drop intPart.length
  match rest with
  | [] => if intPart.isEmpty then none else some (natOfDigits intPart)
  | '.' :: frac =>
      if frac.all Char.isDigit && !(intPart.isEmpty && frac.isEmpty) then
        some ((natOfDigits intPart : ℚ) + (natOfDigits frac : ℚ) / 10 ^ frac.length)
      else none
  | _ => none

def goParseFloat : List Char → Option ℚ
  | [] => none
  | c :: r =>
    if c = '-' then (parseDecimal r).map (fun q => -q)
    else if c = '+' then parseDecimal r
    else parseDecimal (c :: r)

/-- `val, _ := strconv.ParseFloat(s, 64)`: the error is discarded, `val` is 0
on a syntax error. -/
def goParseFloatOr0 (s : List Char) : ℚ := (goParseFloat s).getD 0

/-- Model of Go `strconv.Atoi` (syntax only; the overflow error cannot arise in
the unbounded-Int model). -/
def goAtoi (s : List Char) : Option Int :=
  match s with
  | '-' :: r => if !r.isEmpty && r.all Char.isDigit then some (-(natOfDigits r : Int)) else none
  | '+' :: r => if !r.isEmpty && r.all Char.isDigit then some (natOfDigits r : Int) else none
  | r => if !r.isEmpty && r.all Char.isDigit then some (natOfDigits r : Int) else none

/-- Coordinate format of one axis (`%FSLAX<i><d>Y<i><d>*%`). -/
structure FormatSpec where
  integer : Nat
  decimal : Nat
deriving DecidableEq

/-- Model of `(gf *GerberFile) parseCoordinate` (gerber.go:212-220): a value
with a literal decimal point is taken as-is; otherwise it is divided by
`10^decimal`. -/
def parseCoordinate (valStr : List Char) (fmtSpec : FormatSpec) : ℚ :=
  if valStr.contains '.' then goParseFloatOr0 valStr
  else goParseFloatOr0 valStr / 10 ^ fmtSpec.decimal

/-! ### Mesh extruder (main.go) -/

/-- Model of main.go `Point` (a 3D vertex). -/
structure Point where
  x : ℚ
  y : ℚ
  z : ℚ
deriving DecidableEq

/-- Model of main.go `[3]Point`: one STL triangle. -/
abbrev Triangle : Type := Point × Point × Point

/-- `addQuad` inside `AddBox`: a quad a-b-c-d split into triangles (a,b,c), (c,d,a). -/
def addQuad (a b c d : Point) : List Triangle := [(a, b, c), (c, d, a)]

/-- Model of main.go `AddBox` (main.go:51-76): the 12 triangles of the
axis-aligned box [x,x+w] × [y,y+h] × [0,zHeight], two per face, in the order
bottom, top, front, right, back, left. -/
def addBox (x y w h zHeight : ℚ) : List Triangle :=
  let x0 := x; let y0 := y
  let x1 := x + w; let y1 := y + h
  let z0 : ℚ := 0; let z1 := zHeight
  let p000 : Point := ⟨x0, y0, z0⟩
  let p100 : Point := ⟨x1, y0, z0⟩
  let p110 : Point := ⟨x1, y1, z0⟩
  let p010 : Point := ⟨x0, y1, z0⟩
  let p001 : Point := ⟨x0, y0, z1⟩
  let p101 : Point := ⟨x1, y0, z1⟩
  let p111 : Point := ⟨x1, y1, z1⟩
  let p011 : Point := ⟨x0, y1, z1⟩
  addQuad p000 p010 p110 p100 ++ addQuad p101 p111 p011 p001 ++
  addQuad p000 p100 p101 p001 ++ addQuad p100 p110 p111 p101 ++
  addQuad p110 p010 p011 p111 ++ addQuad p010 p000 p001 p011

/-- Abstraction of the Go `image.Image` handed to `GenerateMeshFromImage`:
bounds (0,0)-(width,height), and the 16-bit r,g,b values that
`img.At(x,y).RGBA()` returns at each pixel. -/
structure GoImage where
  width : Nat
  height : Nat
  colorAt : Nat → Nat → Nat × Nat × Nat

/-- main.go:92-96: a pixel is solid (stencil body) when its r, g and b are all
below the 10000 threshold. -/
def isSolid (img : GoImage) (x y : Nat) : Bool :=
  decide ((img.colorAt x y).1 < 10000) && decide ((img.colorAt x y).2.1 < 10000) &&
    decide ((img.colorAt x y).2.2 < 10000)

/-- The x-scan of one row of `GenerateMeshFromImage` (main.go:87-128): walk the
pixel indices keeping the current run start (`startX`, `none` encodes Go's -1);
a run is flushed as (start, length) when a clear pixel or the end of the row is
reached. -/
def rowRunsAux (solid : Nat → Bool) (width : Nat) : List Nat → Option Nat → List (Nat × Nat)
  | [], none => []
  | [], some s => [(s, width - s)]
  | x :: xs, none =>
      if solid x then rowRunsAux solid width xs (some x)
      else rowRunsAux solid width xs none
  | x :: xs, some s =>
      if solid x then rowRunsAux solid width xs (some s)
      else (s, x - s) :: rowRunsAux solid width xs none

/-- The (startX, length) runs of one row, x scanned from 0 to width-1. -/
def rowRuns (solid : Nat → Bool) (width : Nat) : List (Nat × Nat) :=
  rowRunsAux solid width (List.range width) none

/-- The boxes (startX, y, runLength) emitted by `GenerateMeshFromImage`,
row-major, in emission order. -/
def meshBoxes (img : GoImage) : List (Nat × Nat × Nat) :=
  (List.range img.height).flatMap (fun y =>
    (rowRuns (fun x => isSolid img x y) img.width).map (fun r => (r.1, y, r.2)))

/-- Model of main.go `GenerateMeshFromImage` (main.go:80-131): each row-run box
is extruded by `AddBox` at physical coordinates pixel × `PixelToMM`, one pixel
deep in Y, `StencilHeight` tall in Z. -/
def generateMeshFromImage (img : GoImage) (pixelToMM stencilHeight : ℚ) : List Triangle :=
  (meshBoxes img).flatMap (fun b =>
    addBox (b.1 * pixelToMM) (b.2.1 * pixelToMM) (b.2.2 * pixelToMM) pixelToMM stencilHeight)

/-- Number of solid pixels of the occupancy field. -/
def solidCount (img : GoImage) : Nat :=
  ((List.range img.height).map (fun y =>
    ((List.range img.width).filter (fun x => isSolid img x y)).length)).sum

/-- All three vertices of the triangle lie in the plane x = c. -/
def triOnX (c : ℚ) (t : Triangle) : Bool := t.1.x == c && t.2.1.x == c && t.2.2.x == c

/-- All three vertices of the triangle lie in the plane y = c. -/
def triOnY (c : ℚ) (t : Triangle) : Bool := t.1.y == c && t.2.1.y == c && t.2.2.y == c

/-- All three vertices of the triangle lie in the plane z = c. -/
def triOnZ (c : ℚ) (t : Triangle) : Bool := t.1.z == c && t.2.1.z == c && t.2.2.z == c

/-! ### Gerber data model (gerber.go) -/

/-- Model of gerber.go `Aperture`: shape kind ("C", "R", "O" or a macro name)
plus numeric modifiers. -/
structure Aperture where
  type : String
  modifiers : List ℚ
deriving DecidableEq

/-- Model of gerber.go `MacroPrimitive`. -/
structure MacroPrimitive where
  code : Int
  modifiers : List ℚ
deriving DecidableEq

/-- Model of gerber.go `Macro`. -/
structure Macro where
  name : String
  primitives : List MacroPrimitive
deriving DecidableEq

/-- Go maps are modelled as association lists where an insert prepends and a
lookup takes the first hit (later inserts shadow earlier ones, like map
assignment; the tables are never iterated by the program). -/
def tableInsert {α β : Type} (t : List (α × β)) (k : α) (v : β) : List (α × β) :=
  (k, v) :: t

/-- Model of gerber.go `GerberState`. -/
structure GerberState where
  apertures : List (Int × Aperture)
  macros : List (String × Macro)
  currentAperture : Int
  x : ℚ
  y : ℚ
  formatX : FormatSpec
  formatY : FormatSpec
  units : String
deriving DecidableEq

/-- Model of gerber.go `GerberCommand`: type is one of "APERTURE", "MOVE",
"DRAW", "FLASH"; x, y, d are the optional fields (Go nil-able pointers). -/
structure GerberCommand where
  type : String
  x : Option ℚ
  y : Option ℚ
  d : Option Int
deriving DecidableEq

/-- Model of gerber.go `GerberFile`. -/
structure GerberFile where
  commands : List GerberCommand
  state : GerberState
deriving DecidableEq

/-- Model of `NewGerberFile` (gerber.go:60-68): Go zero values everywhere,
units default "MM". -/
def newGerberFile : GerberFile :=
  { commands := []
    state := { apertures := [], macros := [], currentAperture := 0, x := 0, y := 0,
               formatX := ⟨0, 0⟩, formatY := ⟨0, 0⟩, units := "MM" } }

/-! ### CalculateBounds (gerber.go:226-277) -/

/-- Model of gerber.go `Bounds`. -/
structure Bounds where
  minX : ℚ
  minY : ℚ
  maxX : ℚ
  maxY : ℚ
deriving DecidableEq

/-- The running state of `CalculateBounds`: the four min/max accumulators and
the pen position. -/
structure BoundsAcc where
  minX : ℚ
  minY : ℚ
  maxX : ℚ
  maxY : ℚ
  curX : ℚ
  curY : ℚ
deriving DecidableEq

/-- The `updateBounds` closure (gerber.go:230-243). -/
def updateBounds (st : BoundsAcc) (x y : ℚ) : BoundsAcc :=
  { st with
    minX := if x < st.minX then x else st.minX
    minY := if y < st.minY then y else st.minY
    maxX := if x > st.maxX then x else st.maxX
    maxY := if y > st.maxY then y else st.maxY }

/-- One iteration of the command loop of `CalculateBounds` (gerber.go:246-261):
the pen moves on every command (omitted axes unchanged); a FLASH feeds only the
new point to `updateBounds`, a DRAW feeds the previous and the new point, every
other command feeds nothing. -/
def boundsStep (st : BoundsAcc) (cmd : GerberCommand) : BoundsAcc :=
  let prevX := st.curX
  let prevY := st.curY
  let nx := cmd.x.getD st.curX
  let ny := cmd.y.getD st.curY
  let st1 := { st with curX := nx, curY := ny }
  if cmd.type = "FLASH" then updateBounds st1 nx ny
  else if cmd.type = "DRAW" then updateBounds (updateBounds st1 prevX prevY) nx ny
  else st1

/-- Model of `CalculateBounds` (gerber.go:226-277): scan with min/max seeded at
±1e9, fall back to the (0,0)-(10,10) default when minX was never lowered, then
pad by 2.0 mm on all four sides. -/
def calculateBounds (cmds : List GerberCommand) : Bounds :=
  let st := cmds.foldl boundsStep ⟨1000000000, 1000000000, -1000000000, -1000000000, 0, 0⟩
  let b : Bounds :=
    if st.minX = 1000000000 then ⟨0, 0, 10, 10⟩
    else ⟨st.minX, st.minY, st.maxX, st.maxY⟩
  ⟨b.minX - 2, b.minY - 2, b.maxX + 2, b.maxY + 2⟩

/-! ### Rasterizer (gerber.go:279-472) -/

/-- Model of the RGBA canvas: Go's `image.NewRGBA(Rect(0,0,w,h))` filled
black; `white` lists the pixels painted white afterwards, most recent first. -/
structure Img where
  width : Int
  height : Int
  white : List (Int × Int)
deriving DecidableEq

/-- Model of `img.Set(x, y, White)`: a set outside the canvas is a no-op. -/
def Img.set (img : Img) (x y : Int) : Img :=
  if 0 ≤ x ∧ x < img.width ∧ 0 ≤ y ∧ y < img.height then
    { img with white := (x, y) :: img.white }
  else img

/-- Inclusive integer range [a, b] (empty when b < a). -/
def intRange (a b : Int) : List Int :=
  (List.range (b + 1 - a).toNat).map (fun (i : Nat) => a + (i : Int))

/-- The pixels visited by `drawCircle` (gerber.go:438-447): all (x0+x, y0+y)
with x, y in [-r, r] and x²+y² ≤ r², in scan order. -/
def drawCirclePixels (x0 y0 r : Int) : List (Int × Int) :=
  (intRange (-r) r).flatMap (fun y =>
    (intRange (-r) r).filterMap (fun x =>
      if x * x + y * y ≤ r * r then some (x0 + x, y0 + y) else none))

/-- Model of `drawCircle` (gerber.go:438-447). -/
def drawCircle (img : Img) (x0 y0 r : Int) : Img :=
  (drawCirclePixels x0 y0 r).foldl (fun im p => im.set p.1 p.2) img

/-- Model of Go `image.Rect` (canonicalizes so Min ≤ Max). -/
structure GoRect where
  minX : Int
  minY : Int
  maxX : Int
  maxY : Int
deriving DecidableEq

def mkRect (x0 y0 x1 y1 : Int) : GoRect :=
  ⟨min x0 x1, min y0 y1, max x0 x1, max y0 y1⟩

/-- The pixels of a Go rectangle (half-open on the max side). -/
def rectPixels (r : GoRect) : List (Int × Int) :=
  (intRange r.minY (r.maxY - 1)).flatMap (fun y =>
    (intRange r.minX (r.maxX - 1)).map (fun x => (x, y)))

/-- Model of `draw.Draw(img, r, white, ..)` : paint every pixel of r, clipped
to the canvas. -/
def fillRect (img : Img) (r : GoRect) : Img :=
  (rectPixels r).foldl (fun im p => im.set p.1 p.2) img

/-- Normalization of the rotation modifier of primitive 21 into [0,360)
(gerber.go:411-415). -/
def normRot (rot : ℚ) : ℚ :=
  let r := qmod rot 360
  if r < 0 then r + 360 else r

/-- The rectangle that macro primitive code 21 paints (gerber.go:402-432):
width/height are swapped when the normalized rotation is within 1.0 degree of
90 or of 270; requires at least 6 modifiers. -/
def prim21Rect (x y : Int) (mods : List ℚ) (scale : ℚ) : Option GoRect :=
  if 6 ≤ mods.length then
    let width := mods.getD 1 0
    let height := mods.getD 2 0
    let cx := mods.getD 3 0
    let cy := mods.getD 4 0
    let rot := normRot (mods.getD 5 0)
    let wh := if |rot - 90| < 1 ∨ |rot - 270| < 1 then (height, width) else (width, height)
    let w := qtrunc (wh.1 * scale)
    let h := qtrunc (wh.2 * scale)
    let icx := qtrunc (cx * scale)
    let icy := qtrunc (cy * scale)
    let rx := x + icx
    let ry := y - icy
    some (mkRect (rx - idiv w 2) (ry - idiv h 2) (rx + idiv w 2) (ry + idiv h 2))
  else none

/-- One macro primitive stamp (gerber.go:386-434): code 1 is a circle offset
by the scaled (centerX, -centerY), code 21 the centered rectangle above, any
other code paints nothing. -/
def drawMacroPrim (img : Img) (x y : Int) (prim : MacroPrimitive) (scale : ℚ) : Img :=
  if prim.code = 1 then
    if 4 ≤ prim.modifiers.length then
      let dia := prim.modifiers.getD 1 0
      let cx := prim.modifiers.getD 2 0
      let cy := prim.modifiers.getD 3 0
      let px := qtrunc (cx * scale)
      let py := qtrunc (cy * scale)
      let radius := qtrunc (dia * scale / 2)
      drawCircle img (x + px) (y - py) radius
    else img
  else if prim.code = 21 then
    match prim21Rect x y prim.modifiers scale with
    | some r => fillRect img r
    | none => img
  else img

/-- Model of `drawAperture` (gerber.go:354-436). -/
def drawAperture (st : GerberState) (img : Img) (x y : Int) (ap : Aperture) (scale : ℚ) : Img :=
  if ap.type = "C" then
    if 0 < ap.modifiers.length then
      drawCircle img x y (qtrunc (ap.modifiers.getD 0 0 * scale / 2))
    else img
  else if ap.type = "R" then
    if 2 ≤ ap.modifiers.length then
      let w := qtrunc (ap.modifiers.getD 0 0 * scale)
      let h := qtrunc (ap.modifiers.getD 1 0 * scale)
      fillRect img (mkRect (x - idiv w 2) (y - idiv h 2) (x + idiv w 2) (y + idiv h 2))
    else img
  else if ap.type = "O" then
    if 2 ≤ ap.modifiers.length then
      let w := qtrunc (ap.modifiers.getD 0 0 * scale)
      let h := qtrunc (ap.modifiers.getD 1 0 * scale)
      fillRect img (mkRect (x - idiv w 2) (y - idiv h 2) (x + idiv w 2) (y + idiv h 2))
    else img
  else
    match st.macros.lookup ap.type with
    | some m => m.primitives.foldl (fun im prim => drawMacroPrim im x y prim scale) img
    | none => img

/-- The interpolation step count of `drawLine` (gerber.go:456-459):
`int(dist)` with dist = √(dx²+dy²); on the integer pixel inputs this is
exactly `Nat.sqrt (dx²+dy²)`. -/
def lineSteps (x1 y1 x2 y2 : Int) : Nat :=
  Nat.sqrt ((x2 - x1) * (x2 - x1) + (y2 - y1) * (y2 - y1)).toNat

/-- The i-th interpolated stamp center of `drawLine` (gerber.go:466-470):
t = i/steps, x = int(x1 + t·dx), y = int(y1 + t·dy). -/
def lineCenter (x1 y1 x2 y2 : Int) (i : Nat) : Int × Int :=
  let dx : ℚ := ((x2 - x1 : Int) : ℚ)
  let dy : ℚ := ((y2 - y1 : Int) : ℚ)
  let t : ℚ := (i : ℚ) / ((lineSteps x1 y1 x2 y2 : Nat) : ℚ)
  (qtrunc ((x1 : ℚ) + t * dx), qtrunc ((y1 : ℚ) + t * dy))

/-- The stamp centers of `drawLine` (gerber.go:449-472): one stamp at the
start point when steps = 0, else the interpolated centers for i = 0..steps. -/
def lineCenters (x1 y1 x2 y2 : Int) : List (Int × Int) :=
  let steps := lineSteps x1 y1 x2 y2
  if steps = 0 then [(x1, y1)]
  else (List.range (steps + 1)).map (lineCenter x1 y1 x2 y2)

/-- Model of `drawLine` (gerber.go:449-472): stamp the aperture at every
interpolated center. -/
def drawLine (st : GerberState) (img : Img) (x1 y1 x2 y2 : Int) (ap : Aperture)
    (scale : ℚ) : Img :=
  (lineCenters x1 y1 x2 y2).foldl (fun im c => drawAperture st im c.1 c.2 ap scale) img

/-- The pixel region stamped by a draw with a circular aperture of pixel
radius r: the union of the disks at the interpolated centers of `drawLine`. -/
def drawLineCirclePixels (x1 y1 x2 y2 r : Int) : List (Int × Int) :=
  (lineCenters x1 y1 x2 y2).flatMap (fun c => drawCirclePixels c.1 c.2 r)

/-- 8-neighbourhood adjacency of raster pixels (Chebyshev distance ≤ 1). -/
def adjPix (p q : Int × Int) : Prop :=
  (p.1 - q.1).natAbs ≤ 1 ∧ (p.2 - q.2).natAbs ≤ 1

/-- One connectivity step between two pixels of the set S. -/
def stepAdj (S : List (Int × Int)) (p q : Int × Int) : Prop :=
  p ∈ S ∧ q ∈ S ∧ adjPix p q

/-- The pixels p and q are joined by an 8-connected path inside S. -/
def Joined (S : List (Int × Int)) (p q : Int × Int) : Prop :=
  Relation.ReflTransGen (stepAdj S) p q

/-- The inner loop state of `Render` (gerber.go:316-317). -/
structure RenderAcc where
  img : Img
  curX : ℚ
  curY : ℚ
  curDCode : Int
deriving DecidableEq

/-- The mm→pixel conversion `toPix` (gerber.go:310-314), with the Y flip. -/
def toPix (b : Bounds) (scale heightMM : ℚ) (x y : ℚ) : Int × Int :=
  (qtrunc ((x - b.minX) * scale), qtrunc ((heightMM - (y - b.minY)) * scale))

/-- One iteration of the command loop of `Render` (gerber.go:319-349).
An APERTURE command only selects (Go dereferences `*cmd.D`, which the parser
always sets on APERTURE commands; an absent D is modelled as keeping the
current code). Every other command moves the pen first; FLASH and DRAW then
stamp only when the aperture table has the selected code — a missing entry is
silently skipped. -/
def renderStep (st : GerberState) (scale heightMM : ℚ) (b : Bounds)
    (acc : RenderAcc) (cmd : GerberCommand) : RenderAcc :=
  if cmd.type = "APERTURE" then { acc with curDCode := cmd.d.getD acc.curDCode }
  else
    let prevX := acc.curX
    let prevY := acc.curY
    let nx := cmd.x.getD acc.curX
    let ny := cmd.y.getD acc.curY
    let acc1 := { acc with curX := nx, curY := ny }
    if cmd.type = "FLASH" then
      match st.apertures.lookup acc.curDCode with
      | some ap =>
        let c := toPix b scale heightMM nx ny
        { acc1 with img := drawAperture st acc1.img c.1 c.2 ap scale }
      | none => acc1
    else if cmd.type = "DRAW" then
      match st.apertures.lookup acc.curDCode with
      | some ap =>
        let p1 := toPix b scale heightMM prevX prevY
        let p2 := toPix b scale heightMM nx ny
        { acc1 with img := drawLine st acc1.img p1.1 p1.2 p2.1 p2.2 ap scale }
      | none => acc1
    else acc1

/-- The raster dimensions `Render` computes (gerber.go:288-299): width/height
in mm times dpi (inch mode) or dpi/25.4 (mm mode), truncated to int. There is
no size check and no error path — the allocation is attempted as-is. -/
def renderDims (gf : GerberFile) (dpi : ℚ) (boundsOpt : Option Bounds) : Int × Int :=
  let b := boundsOpt.getD (calculateBounds gf.commands)
  let widthMM := b.maxX - b.minX
  let heightMM := b.maxY - b.minY
  let scale := if gf.state.units = "IN" then dpi else dpi / 25.4
  (qtrunc (widthMM * scale), qtrunc (heightMM * scale))

/-- Model of `Render` (gerber.go:280-352): compute bounds (unless overridden),
allocate the canvas, replay every command. Total — no error value exists. -/
def render (gf : GerberFile) (dpi : ℚ) (boundsOpt : Option Bounds) : Img :=
  let b := boundsOpt.getD (calculateBounds gf.commands)
  let heightMM := b.maxY - b.minY
  let scale := if gf.state.units = "IN" then dpi else dpi / 25.4
  let dims := renderDims gf dpi boundsOpt
  let img0 : Img := ⟨dims.1, dims.2, []⟩
  (gf.commands.foldl (renderStep gf.state scale heightMM b) ⟨img0, 0, 0, 0⟩).img

/-! ### Command interpreter (gerber.go:71-210) -/

/-- Character class `[\d.\-]` of the coordinate regex `([XYD])([\d.\-]+)`. -/
def coordClass (c : Char) : Bool := c.isDigit || c = '.' || c = '-'

/-- State machine equivalent of `reCoord.FindAllStringSubmatch` for
`([XYD])([\d.\-]+)`: scan left to right; an X/Y/D opens a candidate match,
which is emitted when its greedy class run is nonempty; scanning resumes after
the run. The accumulator holds the open letter and its reversed run. -/
def reCoordAux : List Char → Option (Char × List Char) → List (Char × List Char)
  | [], none => []
  | [], some (c, acc) => if acc.isEmpty then [] else [(c, acc.reverse)]
  | ch :: rest, some (c, acc) =>
    if coordClass ch then reCoordAux rest (some (c, ch :: acc))
    else
      (if acc.isEmpty then [] else [(c, acc.reverse)]) ++
      (if ch = 'X' ∨ ch = 'Y' ∨ ch = 'D' then reCoordAux rest (some (ch, []))
       else reCoordAux rest none)
  | ch :: rest, none =>
    if ch = 'X' ∨ ch = 'Y' ∨ ch = 'D' then reCoordAux rest (some (ch, []))
    else reCoordAux rest none

/-- All matches of the coordinate regex on one part. -/
def reCoordMatches (s : List Char) : List (Char × List Char) :=
  reCoordAux s none

/-- Try `%FSLAX(\d)(\d)Y(\d)(\d)\*%` at the head of the list
(the digits are read by Atoi of one digit each). -/
def matchFSAt : List Char → Option (Nat × Nat × Nat × Nat)
  | '%' :: 'F' :: 'S' :: 'L' :: 'A' :: 'X' :: a :: b :: 'Y' :: c :: d :: '*' :: '%' :: _ =>
    if a.isDigit && b.isDigit && c.isDigit && d.isDigit then
      some (a.toNat - '0'.toNat, b.toNat - '0'.toNat, c.toNat - '0'.toNat, d.toNat - '0'.toNat)
    else none
  | _ => none

/-- Leftmost match of the format-spec regex anywhere in the line. -/
def matchFS : List Char → Option (Nat × Nat × Nat × Nat)
  | [] => none
  | c :: rest => (matchFSAt (c :: rest)).orElse (fun _ => matchFS rest)

/-- `[A-Za-z0-9_]`, the aperture-type class of the %AD regex. -/
def wordClass (c : Char) : Bool := c.isAlphanum || c = '_'

/-- `[\d.X]`, the modifier-text class of the %AD regex. -/
def admodClass (c : Char) : Bool := c.isDigit || c = '.' || c = 'X'

/-- The nonempty prefixes of the maximal `p`-run of `s`, longest first, each
with its remainder: the candidates of a greedy `(p)+` group in the
backtracking order of leftmost-first regex matching. -/
def plusSplits (p : Char → Bool) (s : List Char) : List (List Char × List Char) :=
  let m := s.takeWhile p
  (List.range m.length).map (fun k => (s.take (m.length - k), s.drop (m.length - k)))

/-- Try `%ADD(\d+)([A-Za-z0-9_]+),?([\d.X]+)?\*%` at the head of the list:
greedy groups with backtracking, leftmost-first as in Go's regexp. Returns
(code digits, type text, modifier text — empty when the optional group is
absent). -/
def matchADAt (s : List Char) : Option (List Char × List Char × List Char) :=
  match s with
  | '%' :: 'A' :: 'D' :: 'D' :: rest =>
    (plusSplits Char.isDigit rest).findSome? (fun (g1 : List Char × List Char) =>
      (plusSplits wordClass g1.2).findSome? (fun (g2 : List Char × List Char) =>
        let afterComma : List (List Char) :=
          match g2.2 with
          | ',' :: r2 => [r2, g2.2]
          | _ => [g2.2]
        afterComma.findSome? (fun (r3 : List Char) =>
          ((plusSplits admodClass r3) ++ [([], r3)]).findSome?
            (fun (g3 : List Char × List Char) =>
            match g3.2 with
            | '*' :: '%' :: _ => some (g1.1, g2.1, g3.1)
            | _ => none))))
  | _ => none

/-- Leftmost match of the aperture-definition regex anywhere in the line. -/
def matchAD : List Char → Option (List Char × List Char × List Char)
  | [] => none
  | c :: rest => (matchADAt (c :: rest)).orElse (fun _ => matchAD rest)

/-- Model of `strings.Contains`. -/
def containsSub (sub : List Char) : List Char → Bool
  | [] => sub.isEmpty
  | c :: rest => sub.isPrefixOf (c :: rest) || containsSub sub rest

/-- The characters `strings.TrimSpace` strips (ASCII whitespace; the exotic
Unicode space classes do not occur in Gerber text). -/
def isSpaceChar (c : Char) : Bool := c = ' ' || c = '\t' || c = '\n' || c = '\r'

/-- Model of `strings.TrimSpace`. -/
def trimChars (s : List Char) : List Char :=
  ((s.dropWhile isSpaceChar).reverse.dropWhile isSpaceChar).reverse

/-- Model of `strings.TrimSuffix(s, "*")`: drop one trailing `*` if present. -/
def dropSufStar (s : List Char) : List Char :=
  if s.getLast? = some '*' then s.dropLast else s

/-- Apply a matched %FS line (gerber.go:96-103). -/
def applyFS (gf : GerberFile) (line : List Char) : GerberFile :=
  match matchFS line with
  | some (a, b, c, d) =>
    { gf with state := { gf.state with formatX := ⟨a, b⟩, formatY := ⟨c, d⟩ } }
  | none => gf

/-- Apply a matched %AD line (gerber.go:104-118): bind the code to the
aperture; the modifier text is split on `X` and each piece ParseFloat-ed
(0 on error). -/
def applyAD (gf : GerberFile) (line : List Char) : GerberFile :=
  match matchAD line with
  | some (g1, g2, g3) =>
    let dCode := (goAtoi g1).getD 0
    let mods : List ℚ :=
      if g3.isEmpty then [] else (g3.splitOn 'X').map goParseFloatOr0
    { gf with state := { gf.state with
        apertures := tableInsert gf.state.apertures dCode ⟨String.mk g2, mods⟩ } }
  | none => gf

/-- Apply a %MO line (gerber.go:144-149): units are IN when the line contains
"IN", else MM. -/
def applyMO (gf : GerberFile) (line : List Char) : GerberFile :=
  if containsSub ['I', 'N'] line then
    { gf with state := { gf.state with units := "IN" } }
  else
    { gf with state := { gf.state with units := "MM" } }

/-- One primitive line of an %AM block (gerber.go:131-141): strip one trailing
`*`, split on `,`, Atoi the code (0 on error), ParseFloat the modifiers
(0 on error). -/
def parseMacroLine (m : List Char) : MacroPrimitive :=
  let m2 := dropSufStar m
  let parts := m2.splitOn ','
  let code := (goAtoi (parts.getD 0 [])).getD 0
  let mods := (parts.drop 1).map goParseFloatOr0
  ⟨code, mods⟩

/-- Record a finished macro (gerber.go:143). -/
def addMacro (gf : GerberFile) (nm : String) (prims : List MacroPrimitive) : GerberFile :=
  { gf with state := { gf.state with macros := tableInsert gf.state.macros nm ⟨nm, prims⟩ } }

/-- One iteration of the match loop building a coordinate command
(gerber.go:181-203): X/Y matches set the parsed coordinate; a D match sets the
d field and switches the type to DRAW/MOVE/FLASH for truncated values 1/2/3,
leaving the type unchanged for any other value. -/
def coordStep (fmtX fmtY : FormatSpec) (cmd : GerberCommand) (m : Char × List Char) :
    GerberCommand :=
  if m.1 = 'X' then { cmd with x := some (parseCoordinate m.2 fmtX) }
  else if m.1 = 'Y' then { cmd with y := some (parseCoordinate m.2 fmtY) }
  else if m.1 = 'D' then
    { cmd with
      d := some (qtrunc (goParseFloatOr0 m.2)),
      type := if qtrunc (goParseFloatOr0 m.2) = 1 then "DRAW"
              else if qtrunc (goParseFloatOr0 m.2) = 2 then "MOVE"
              else if qtrunc (goParseFloatOr0 m.2) = 3 then "FLASH" else cmd.type }
  else cmd

/-- The coordinate command built from the matches (gerber.go:180-204): the
type starts as MOVE. -/
def buildCoordCmd (fmtX fmtY : FormatSpec) (ms : List (Char × List Char)) : GerberCommand :=
  ms.foldl (coordStep fmtX fmtY) ⟨"MOVE", none, none, none⟩

/-- Processing of one `*`-separated part of a data line (gerber.go:157-205):
`Dnn` with nn ≥ 10 is an aperture selection; otherwise, when the coordinate
regex matches, a coordinate command is appended. -/
def processPart (gf : GerberFile) (part0 : List Char) : GerberFile :=
  let part := trimChars part0
  if part.isEmpty then gf
  else
    let apertureCase : Option GerberFile :=
      if part.headD ' ' = 'D' ∧ 2 ≤ part.length then
        match goAtoi (part.drop 1) with
        | some d =>
          if 10 ≤ d then
            some { gf with commands := gf.commands ++ [⟨"APERTURE", none, none, some d⟩] }
          else none
        | none => none
      else none
    match apertureCase with
    | some gf2 => gf2
    | none =>
      let ms := reCoordMatches part
      if ms.isEmpty then gf
      else { gf with commands :=
        gf.commands ++ [buildCoordCmd gf.state.formatX gf.state.formatY ms] }

/-- Processing of a non-% line (gerber.go:154-206): split on `*`, handle each
part. -/
def processDataLine (gf : GerberFile) (line : List Char) : GerberFile :=
  (line.splitOn '*').foldl processPart gf

/-- The line loop of `ParseGerber` (gerber.go:88-207), with the inner %AM scan
made an explicit mode: inside a macro block every line is a primitive until a
lone `%` line; EOF also closes the block and the macro is still recorded (in
Go the map assignment follows the inner scan loop). -/
def parseLinesM : List (List Char) → Option (String × List MacroPrimitive) → GerberFile → GerberFile
  | [], none, gf => gf
  | [], some (nm, prims), gf => addMacro gf nm prims
  | l :: rest, some (nm, prims), gf =>
    let m := trimChars l
    if m = ['%'] then parseLinesM rest none (addMacro gf nm prims)
    else parseLinesM rest (some (nm, prims ++ [parseMacroLine m])) gf
  | l :: rest, none, gf =>
    let line := trimChars l
    if line.isEmpty then parseLinesM rest none gf
    else if ['%'].isPrefixOf line then
      if ['%', 'F', 'S'].isPrefixOf line then parseLinesM rest none (applyFS gf line)
      else if ['%', 'A', 'D'].isPrefixOf line then parseLinesM rest none (applyAD gf line)
      else if ['%', 'A', 'M'].isPrefixOf line then
        let nm := dropSufStar (line.drop 3)
        parseLinesM rest (some (String.mk nm, [])) gf
      else if ['%', 'M', 'O'].isPrefixOf line then parseLinesM rest none (applyMO gf line)
      else parseLinesM rest none gf
    else parseLinesM rest none (processDataLine gf line)

/-- Model of `ParseGerber` (gerber.go:71-210) after the file opened: a total
function of the line list. -/
def parseGerberLines (lines : List (List Char)) : GerberFile :=
  parseLinesM lines none newGerberFile

/-- `ParseGerber` with its I/O boundary made explicit: an unreadable input
(`none`) is the only error; every readable text parses. -/
def parseGerber (input : Option (List (List Char))) : Except String GerberFile :=
  match input with
  | none => Except.error "io error"
  | some lines => Except.ok (parseGerberLines lines)

end PCB

namespace PCB

theorem parseDecimal_all_digits (l : List Char) (h : l.all Char.isDigit = true) :
    parseDecimal l = if l.isEmpty then none else some ((natOfDigits l : ℚ)) := by
  unfold parseDecimal
  have htake : l.takeWhile Char.isDigit = l := by
    apply List.takeWhile_eq_self_iff.mpr
    intro c hc
    exact (List.all_eq_true.mp h) c hc
  simp [htake]

theorem goParseFloat_all_digits (l : List Char) (h : l.all Char.isDigit = true)
    (hne : l ≠ []) : goParseFloat l = some ((natOfDigits l : ℚ)) := by
  have hd := parseDecimal_all_digits l h
  rw [if_neg (by simpa using hne)] at hd
  match l, hne with
  | c :: r, _ =>
    have hc : c.isDigit = true := (List.all_eq_true.mp h) c (by simp)
    have hcm : c ≠ '-' := by rintro rfl; simp [Char.isDigit] at hc
    have hcp : c ≠ '+' := by rintro rfl; simp [Char.isDigit] at hc
    simp only [goParseFloat, if_neg hcm, if_neg hcp]
    exact hd

/-- C1: a coordinate string with a literal decimal point parses to its literal
value with no format-based scaling; one without a decimal point parses to its
integer value divided by `10^(decimal digits)` of the axis format; in
particular `1234` under format (int=2, dec=4) parses to `0.1234`. -/
theorem C1_parseCoordinate_spec (s : List Char) (fmt : FormatSpec) :
    (s.contains '.' = true → parseCoordinate s fmt = goParseFloatOr0 s) ∧
    (s.contains '.' = false →
      parseCoordinate s fmt = goParseFloatOr0 s / 10 ^ fmt.decimal) ∧
    (s.all Char.isDigit = true → s ≠ [] →
      parseCoordinate s fmt = (natOfDigits s : ℚ) / 10 ^ fmt.decimal) ∧
    parseCoordinate "1234".toList ⟨2, 4⟩ = (1234 : ℚ) / 10000 := by
  refine ⟨?_, ?_, ?_, ?_⟩
  · intro h; simp only [parseCoordinate, h, if_true]
  · intro h; simp only [parseCoordinate, h, Bool.false_eq_true, if_false]
  · intro hdig hne
    have hnodot : s.contains '.' = false := by
      simp only [List.contains_eq_any_beq, List.any_eq_false, bne_iff_ne, beq_iff_eq]
      intro c hmem hdot
      subst hdot
      have := (List.all_eq_true.mp hdig) '.' hmem
      simp [Char.isDigit] at this
    rw [parseCoordinate, if_neg (by rw [hnodot]; exact Bool.false_ne_true), goParseFloatOr0,
      goParseFloat_all_digits s hdig hne]
    rfl
  · have hdig : ("1234".toList).all Char.isDigit = true := by decide
    have hne : "1234".toList ≠ [] := by decide
    have hnodot : ("1234".toList).contains '.' = false := by decide
    rw [parseCoordinate, if_neg (by rw [hnodot]; exact Bool.false_ne_true), goParseFloatOr0,
      goParseFloat_all_digits _ hdig hne]
    have : natOfDigits "1234".toList = 1234 := by decide
    rw [this]
    norm_num

/-- Witness for C1 at concrete inputs. -/
theorem C1_witness :
    parseCoordinate "12.5".toList ⟨2, 4⟩ = goParseFloatOr0 "12.5".toList ∧
    parseCoordinate "1234".toList ⟨2, 4⟩ = (1234 : ℚ) / 10000 := by
  exact ⟨(C1_parseCoordinate_spec "12.5".toList ⟨2, 4⟩).1 (by decide),
    (C1_parseCoordinate_spec "1234".toList ⟨2, 4⟩).2.2.2⟩

theorem rowRunsAux_sum (solid : Nat → Bool) (width : Nat) :
    ∀ (n i : Nat), i + n = width →
      (((rowRunsAux solid width (List.range' i n) none).map (fun r => r.2)).sum
        = ((List.range' i n).filter solid).length) ∧
      (∀ s, s ≤ i →
        ((rowRunsAux solid width (List.range' i n) (some s)).map (fun r => r.2)).sum
          = (i - s) + ((List.range' i n).filter solid).length) := by
  intro n
  induction n with
  | zero =>
    intro i hi
    constructor
    · simp [rowRunsAux]
    · intro s hs
      simp only [List.range'_zero, rowRunsAux, List.map_cons, List.map_nil, List.sum_cons,
        List.sum_nil, List.filter_nil, List.length_nil]
      omega
  | succ n ih =>
    intro i hi
    have hrec := ih (i + 1) (by omega)
    have hcons : List.range' i (n + 1) = i :: List.range' (i + 1) n := List.range'_succ i n 1
    constructor
    · rw [hcons]
      by_cases hx : solid i
      · simp only [rowRunsAux, hx, if_true, List.filter_cons, List.length_cons]
        rw [(hrec.2 i (by omega))]
        simp [hx]
        omega
      · simp only [rowRunsAux, hx, Bool.false_eq_true, if_false, List.filter_cons]
        rw [hrec.1]
    · intro s hs
      rw [hcons]
      by_cases hx : solid i
      · simp only [rowRunsAux, hx, if_true, List.filter_cons]
        rw [(hrec.2 s (by omega))]
        simp only [hx, if_true, List.length_cons]
        omega
      · simp only [rowRunsAux, hx, Bool.false_eq_true, if_false, List.filter_cons,
          List.map_cons, List.sum_cons]
        rw [hrec.1]

theorem rowRuns_sum (solid : Nat → Bool) (width : Nat) :
    ((rowRuns solid width).map (fun r => r.2)).sum
      = ((List.range width).filter solid).length := by
  rw [rowRuns, List.range_eq_range']
  exact ((rowRunsAux_sum solid width width 0 (by omega)).1)

/-- C2: row-run merging is lossless — for every occupancy field, the total XY
pixel area of the boxes emitted by GenerateMeshFromImage (sum over boxes of
run length × 1 pixel row) equals the number of solid pixels of the field. -/
theorem C2_mesh_lossless (img : GoImage) :
    ((meshBoxes img).map (fun b => b.2.2)).sum = solidCount img := by
  rw [meshBoxes, solidCount, List.map_flatMap]
  induction (List.range img.height) with
  | nil => simp
  | cons y ys ih =>
    simp only [List.flatMap_cons, List.map_cons, List.sum_append, List.sum_cons, ih]
    congr 1
    rw [List.map_map]
    exact rowRuns_sum (fun x => isSolid img x y) img.width

theorem addBox_length (x y w h zH : ℚ) : (addBox x y w h zH).length = 12 := by
  simp [addBox, addQuad]

theorem generateMeshFromImage_length (img : GoImage) (p sH : ℚ) :
    (generateMeshFromImage img p sH).length = 12 * (meshBoxes img).length := by
  rw [generateMeshFromImage]
  induction (meshBoxes img) with
  | nil => simp
  | cons b bs ih =>
    simp only [List.flatMap_cons, List.length_append, ih, addBox_length, List.length_cons]
    ring

/-- C3: every box contributes exactly 12 triangles; all Z coordinates are 0 or
the extrusion height; for a nondegenerate box each of the six face planes
carries exactly two of the twelve triangles (closed box, no culling); hence
the total triangle count of the generated mesh is a multiple of 12. -/
theorem C3_addBox_closed_box (x y w h zH : ℚ) :
    (addBox x y w h zH).length = 12 ∧
    (∀ t ∈ addBox x y w h zH,
      (t.1.z = 0 ∨ t.1.z = zH) ∧ (t.2.1.z = 0 ∨ t.2.1.z = zH) ∧
      (t.2.2.z = 0 ∨ t.2.2.z = zH)) ∧
    (0 < w → 0 < h → 0 < zH →
      ((addBox x y w h zH).countP (triOnZ 0) = 2 ∧
       (addBox x y w h zH).countP (triOnZ zH) = 2 ∧
       (addBox x y w h zH).countP (triOnX x) = 2 ∧
       (addBox x y w h zH).countP (triOnX (x + w)) = 2 ∧
       (addBox x y w h zH).countP (triOnY y) = 2 ∧
       (addBox x y w h zH).countP (triOnY (y + h)) = 2)) ∧
    (∀ (img : GoImage) (p sH : ℚ), (generateMeshFromImage img p sH).length % 12 = 0) := by
  refine ⟨addBox_length x y w h zH, ?_, ?_, ?_⟩
  · intro t ht
    simp only [addBox, addQuad, List.append_assoc, List.cons_append, List.nil_append,
      List.mem_cons, List.not_mem_nil, or_false] at ht
    rcases ht with h | h | h | h | h | h | h | h | h | h | h | h <;> subst h <;> simp
  · intro hw hh hz
    have hwx : x + w ≠ x := by intro hc; apply hw.ne'; linarith
    have hhy : y + h ≠ y := by intro hc; apply hh.ne'; linarith
    refine ⟨?_, ?_, ?_, ?_, ?_, ?_⟩ <;>
      simp [addBox, addQuad, List.countP_cons, triOnX, triOnY, triOnZ,
        hwx, hhy, hz.ne', hz.ne, Ne.symm hwx, Ne.symm hhy]
  · intro img p sH
    rw [generateMeshFromImage_length]
    simp [Nat.mul_mod_right]

/-- Witness for C3 at a concrete nondegenerate box. -/
theorem C3_witness :
    (addBox 0 0 1 1 1).length = 12 ∧
    (addBox 0 0 1 1 1).countP (triOnZ 0) = 2 ∧
    (addBox 0 0 1 1 1).countP (triOnZ 1) = 2 := by
  have h := C3_addBox_closed_box 0 0 1 1 1
  have h3 := h.2.2.1 (by norm_num) (by norm_num) (by norm_num)
  exact ⟨h.1, h3.1, by simpa using h3.2.1⟩

theorem updateBounds_le (st : BoundsAcc) (x y : ℚ) :
    (updateBounds st x y).minX ≤ (updateBounds st x y).maxX ∧
    (updateBounds st x y).minY ≤ (updateBounds st x y).maxY := by
  unfold updateBounds
  constructor <;> dsimp only <;> split <;> split <;> linarith

theorem updateBounds_mono (st : BoundsAcc) (x y : ℚ)
    (h : st.minX ≤ st.maxX ∧ st.minY ≤ st.maxY) :
    (updateBounds st x y).minX ≤ (updateBounds st x y).maxX ∧
    (updateBounds st x y).minY ≤ (updateBounds st x y).maxY :=
  updateBounds_le st x y

/-- Invariant of the CalculateBounds scan: the accumulators are still the seed
values, or min ≤ max on both axes. -/
def BoundsInv (st : BoundsAcc) : Prop :=
  (st.minX = 1000000000 ∧ st.minY = 1000000000 ∧
   st.maxX = -1000000000 ∧ st.maxY = -1000000000) ∨
  (st.minX ≤ st.maxX ∧ st.minY ≤ st.maxY)

theorem boundsStep_inv (st : BoundsAcc) (cmd : GerberCommand) (h : BoundsInv st) :
    BoundsInv (boundsStep st cmd) := by
  unfold boundsStep
  by_cases h1 : cmd.type = "FLASH"
  · simp only [h1, if_true]
    exact Or.inr (updateBounds_le _ _ _)
  · by_cases h2 : cmd.type = "DRAW"
    · simp only [h1, h2, if_false, if_true]
      exact Or.inr (updateBounds_le _ _ _)
    · simp only [h1, h2, if_false]
      rcases h with h | h


      · exact Or.inl ⟨h.1, h.2.1, h.2.2.1, h.2.2.2⟩
      · exact Or.inr h

theorem foldl_boundsStep_inv (cmds : List GerberCommand) :
    ∀ (st : BoundsAcc), BoundsInv st → BoundsInv (cmds.foldl boundsStep st) := by
  induction cmds with
  | nil => intro st h; exact h
  | cons c cs ih => intro st h; exact ih _ (boundsStep_inv st c h)

theorem foldl_boundsStep_untouched (cmds : List GerberCommand)
    (hno : ∀ c ∈ cmds, c.type ≠ "FLASH" ∧ c.type ≠ "DRAW") :
    ∀ (st : BoundsAcc),
      (cmds.foldl boundsStep st).minX = st.minX ∧
      (cmds.foldl boundsStep st).minY = st.minY ∧
      (cmds.foldl boundsStep st).maxX = st.maxX ∧
      (cmds.foldl boundsStep st).maxY = st.maxY := by
  induction cmds with
  | nil => intro st; exact ⟨rfl, rfl, rfl, rfl⟩
  | cons c cs ih =>
    intro st
    have hc := hno c (by simp)
    have hstep : boundsStep st c = { st with curX := c.x.getD st.curX, curY := c.y.getD st.curY } := by
      unfold boundsStep
      simp only [hc.1, hc.2, if_false]
    rw [List.foldl_cons, hstep]
    exact ih (fun d hd => hno d (by simp [hd]))
      { st with curX := c.x.getD st.curX, curY := c.y.getD st.curY }

/-- C5: CalculateBounds tracks the pen on every command; a FLASH contributes
only its end point, a DRAW its start and end point, every other command
contributes nothing; with no DRAW/FLASH geometry the bounds fall back to the
fixed (0,0)-(10,10) default; the result is padded by 2.0 mm on all four sides
and is always a nonempty (finite rational) box. -/
theorem C5_calculateBounds_spec (cmds : List GerberCommand) :
    (∀ (st : BoundsAcc) (cmd : GerberCommand), cmd.type ≠ "FLASH" → cmd.type ≠ "DRAW" →
      boundsStep st cmd = { st with curX := cmd.x.getD st.curX, curY := cmd.y.getD st.curY }) ∧
    (∀ (st : BoundsAcc) (cmd : GerberCommand), cmd.type = "FLASH" →
      boundsStep st cmd =
        updateBounds { st with curX := cmd.x.getD st.curX, curY := cmd.y.getD st.curY }
          (cmd.x.getD st.curX) (cmd.y.getD st.curY)) ∧
    (∀ (st : BoundsAcc) (cmd : GerberCommand), cmd.type = "DRAW" →
      boundsStep st cmd =
        updateBounds
          (updateBounds { st with curX := cmd.x.getD st.curX, curY := cmd.y.getD st.curY }
            st.curX st.curY)
          (cmd.x.getD st.curX) (cmd.y.getD st.curY)) ∧
    ((∀ c ∈ cmds, c.type ≠ "FLASH" ∧ c.type ≠ "DRAW") →
      calculateBounds cmds = ⟨-2, -2, 12, 12⟩) ∧
    ((calculateBounds cmds).minX < (calculateBounds cmds).maxX ∧
     (calculateBounds cmds).minY < (calculateBounds cmds).maxY) := by
  refine ⟨?_, ?_, ?_, ?_, ?_⟩
  · intro st cmd h1 h2
    unfold boundsStep
    simp only [h1, h2, if_false]
  · intro st cmd h
    unfold boundsStep
    simp only [h, if_true]
  · intro st cmd h
    unfold boundsStep
    simp [h]
  · intro hno
    have h := foldl_boundsStep_untouched cmds hno
      ⟨1000000000, 1000000000, -1000000000, -1000000000, 0, 0⟩
    simp only [calculateBounds]
    rw [if_pos (by simpa using h.1)]
    norm_num [Bounds.mk.injEq]
  · have hinv := foldl_boundsStep_inv cmds
      ⟨1000000000, 1000000000, -1000000000, -1000000000, 0, 0⟩
      (Or.inl ⟨rfl, rfl, rfl, rfl⟩)
    simp only [calculateBounds]
    by_cases hfb :
        (cmds.foldl boundsStep
          ⟨1000000000, 1000000000, -1000000000, -1000000000, 0, 0⟩).minX = 1000000000
    · rw [if_pos hfb]
      norm_num
    · rw [if_neg hfb]
      rcases hinv with h | h
      · exact absurd h.1 hfb
      · constructor <;> dsimp only <;> linarith [h.1, h.2]

/-- Witness for C5: the empty command list yields the padded default bounds. -/
theorem C5_witness : calculateBounds [] = ⟨-2, -2, 12, 12⟩ :=
  (C5_calculateBounds_spec []).2.2.2.1 (by intro c hc; cases hc)

/-- C4: a DRAW or FLASH whose selected aperture code has no table entry is a
recoverable no-op — the canvas is untouched, the pen still moves (omitted axes
unchanged), no error exists; and a macro primitive with an unrecognized code
(neither 1 nor 21) paints nothing. -/
theorem C4_missing_aperture_noop (st : GerberState) (scale heightMM : ℚ) (b : Bounds)
    (acc : RenderAcc) (cmd : GerberCommand)
    (hap : st.apertures.lookup acc.curDCode = none)
    (hdf : cmd.type = "DRAW" ∨ cmd.type = "FLASH") :
    renderStep st scale heightMM b acc cmd =
      { acc with curX := cmd.x.getD acc.curX, curY := cmd.y.getD acc.curY } ∧
    (∀ (img : Img) (x y : Int) (prim : MacroPrimitive),
      prim.code ≠ 1 → prim.code ≠ 21 → drawMacroPrim img x y prim scale = img) := by
  constructor
  · rcases hdf with h | h <;>
      · unfold renderStep
        simp [h, hap]
  · intro img x y prim h1 h21
    unfold drawMacroPrim
    simp [h1, h21]

/-- Witness for C4: a FLASH with an empty aperture table only moves the pen. -/
theorem C4_witness :
    renderStep
      { apertures := [], macros := [], currentAperture := 0, x := 0, y := 0,
        formatX := ⟨0, 0⟩, formatY := ⟨0, 0⟩, units := "MM" }
      1 0 ⟨0, 0, 10, 10⟩ ⟨⟨10, 10, []⟩, 0, 0, 0⟩ ⟨"FLASH", some 3, some 4, some 3⟩
      = ⟨⟨10, 10, []⟩, 3, 4, 0⟩ ∧
    drawMacroPrim ⟨10, 10, []⟩ 0 0 ⟨7, [1, 1, 0, 0]⟩ 1 = ⟨10, 10, []⟩ := by
  have h := C4_missing_aperture_noop
    { apertures := [], macros := [], currentAperture := 0, x := 0, y := 0,
      formatX := ⟨0, 0⟩, formatY := ⟨0, 0⟩, units := "MM" }
    1 0 ⟨0, 0, 10, 10⟩ ⟨⟨10, 10, []⟩, 0, 0, 0⟩ ⟨"FLASH", some 3, some 4, some 3⟩
    rfl (Or.inr rfl)
  exact ⟨h.1, h.2 ⟨10, 10, []⟩ 0 0 ⟨7, [1, 1, 0, 0]⟩ (by decide) (by decide)⟩

/-- C7 evidence: Render computes the raster dimensions with no size check and
no error path (`render` is total into `Img`); at bounds (0,0)-(10⁹,10⁹) mm and
dpi 1000 it computes a 39370078740 × 39370078740 pixel allocation instead of
flagging a typed failure. -/
theorem C7_render_no_size_check :
    renderDims newGerberFile 1000 (some ⟨0, 0, 1000000000, 1000000000⟩)
      = (39370078740, 39370078740) ∧
    render newGerberFile 1000 (some ⟨0, 0, 1000000000, 1000000000⟩)
      = ⟨39370078740, 39370078740, []⟩ := by
  have hscale : (if ("MM" : String) = "IN" then (1000 : ℚ) else 1000 / 25.4) = 1000 / 25.4 := by
    rw [if_neg (by decide)]
  have hq : qtrunc ((1000000000 - 0) * (1000 / 25.4)) = 39370078740 := by
    rw [qtrunc, if_pos (by norm_num)]
    norm_num
  constructor
  · simp only [renderDims, newGerberFile, Option.getD, hscale]
    rw [hq]
  · simp only [render, renderDims, newGerberFile, Option.getD, List.foldl_nil, hscale]
    rw [hq]

theorem qmod360_bounds (r : ℚ) :
    (0 ≤ r → 0 ≤ qmod r 360 ∧ qmod r 360 < 360) ∧
    (r < 0 → -360 < qmod r 360 ∧ qmod r 360 ≤ 0) := by
  have key : (360 : ℚ) * (r / 360) = r := by ring
  constructor
  · intro hr
    have hx : (0 : ℚ) ≤ r / 360 := by positivity
    have h1 := Int.floor_le (r / 360)
    have h2 := Int.lt_floor_add_one (r / 360)
    unfold qmod qtrunc
    rw [if_pos hx]
    constructor <;> nlinarith
  · intro hr
    have hx : r / 360 < 0 := div_neg_of_neg_of_pos hr (by norm_num)
    have h1 := Int.le_ceil (r / 360)
    have h2 := Int.ceil_lt_add_one (r / 360)
    unfold qmod qtrunc
    rw [if_neg (by linarith)]
    constructor <;> nlinarith

theorem normRot_mem (r : ℚ) : 0 ≤ normRot r ∧ normRot r < 360 := by
  unfold normRot
  rcases le_or_lt 0 r with hr | hr
  · have h := (qmod360_bounds r).1 hr
    rw [if_neg (by linarith)]
    exact h
  · have h := (qmod360_bounds r).2 hr
    by_cases hq : qmod r 360 < 0
    · rw [if_pos hq]
      constructor <;> linarith
    · rw [if_neg hq]
      push_neg at hq
      constructor <;> linarith

/-- C9 counterexample: under macro primitive code 21, a rotation of 90.5
degrees — which is neither 90 nor 270 — still swaps width and height. With
width 2, height 1, center (0,0), scale 10 the emitted rectangle is the
swapped 10×20 one, not the 20×10 rectangle the claim predicts for an angle
other than 90/270. -/
theorem C9_counterexample :
    prim21Rect 0 0 [1, 2, 1, 0, 0, 181 / 2] 10 = some ⟨-5, -10, 5, 10⟩ ∧
    ((181 : ℚ) / 2 ≠ 90 ∧ (181 : ℚ) / 2 ≠ 270) ∧
    prim21Rect 0 0 [1, 2, 1, 0, 0, 181 / 2] 10 ≠ some ⟨-10, -5, 10, 5⟩ := by
  have hq0 : qmod ((181 : ℚ) / 2) 360 = 181 / 2 := by
    rw [qmod, qtrunc, if_pos (by norm_num)]
    norm_num
  have hnorm : normRot (181 / 2) = 181 / 2 := by
    simp only [normRot, hq0]
    rw [if_neg (by norm_num)]
  have hswap : |normRot (181 / 2) - 90| < 1 ∨ |normRot (181 / 2) - (270 : ℚ)| < 1 := by
    left
    rw [hnorm]
    rw [abs_lt]
    constructor <;> norm_num
  have heq : prim21Rect 0 0 [1, 2, 1, 0, 0, 181 / 2] 10 = some ⟨-5, -10, 5, 10⟩ := by
    simp only [prim21Rect]
    rw [if_pos (by simp)]
    rw [show ([1, 2, 1, 0, 0, (181 : ℚ) / 2].getD 1 0) = 2 from rfl,
      show ([1, 2, 1, 0, 0, (181 : ℚ) / 2].getD 2 0) = 1 from rfl,
      show ([1, 2, 1, 0, 0, (181 : ℚ) / 2].getD 3 0) = 0 from rfl,
      show ([1, 2, 1, 0, 0, (181 : ℚ) / 2].getD 4 0) = 0 from rfl,
      show ([1, 2, 1, 0, 0, (181 : ℚ) / 2].getD 5 0) = 181 / 2 from rfl]
    rw [if_pos hswap]
    dsimp only
    have h1 : qtrunc ((1 : ℚ) * 10) = 10 := by rw [qtrunc, if_pos (by norm_num)]; norm_num
    have h2 : qtrunc ((2 : ℚ) * 10) = 20 := by rw [qtrunc, if_pos (by norm_num)]; norm_num
    have h0 : qtrunc ((0 : ℚ) * 10) = 0 := by rw [qtrunc, if_pos (by norm_num)]; norm_num
    simp only [h1, h2, h0]
    rw [show idiv 10 2 = 5 by decide, show idiv 20 2 = 10 by decide]
    rw [mkRect]
    norm_num [GoRect.mk.injEq]
  exact ⟨heq, ⟨by norm_num, by norm_num⟩, by rw [heq]; decide⟩

/-- C9 amended: for macro primitive code 21 the rotation modifier is
normalized into [0,360); width and height are swapped exactly when the
normalized rotation is strictly within 1.0 degree of 90 or of 270 (not only at
exactly 90 or 270); every other angle paints the axis-aligned rectangle with
the original width and height, offset from the flash point by the scaled
(centerX, -centerY). -/
theorem C9_prim21_rotation_swap (img : Img) (x y : Int) (mods : List ℚ) (scale : ℚ)
    (h : 6 ≤ mods.length) :
    (0 ≤ normRot (mods.getD 5 0) ∧ normRot (mods.getD 5 0) < 360) ∧
    ((|normRot (mods.getD 5 0) - 90| < 1 ∨ |normRot (mods.getD 5 0) - 270| < 1) →
      drawMacroPrim img x y ⟨21, mods⟩ scale =
        fillRect img (mkRect
          (x + qtrunc (mods.getD 3 0 * scale) - idiv (qtrunc (mods.getD 2 0 * scale)) 2)
          (y - qtrunc (mods.getD 4 0 * scale) - idiv (qtrunc (mods.getD 1 0 * scale)) 2)
          (x + qtrunc (mods.getD 3 0 * scale) + idiv (qtrunc (mods.getD 2 0 * scale)) 2)
          (y - qtrunc (mods.getD 4 0 * scale) + idiv (qtrunc (mods.getD 1 0 * scale)) 2))) ∧
    (¬(|normRot (mods.getD 5 0) - 90| < 1 ∨ |normRot (mods.getD 5 0) - 270| < 1) →
      drawMacroPrim img x y ⟨21, mods⟩ scale =
        fillRect img (mkRect
          (x + qtrunc (mods.getD 3 0 * scale) - idiv (qtrunc (mods.getD 1 0 * scale)) 2)
          (y - qtrunc (mods.getD 4 0 * scale) - idiv (qtrunc (mods.getD 2 0 * scale)) 2)
          (x + qtrunc (mods.getD 3 0 * scale) + idiv (qtrunc (mods.getD 1 0 * scale)) 2)
          (y - qtrunc (mods.getD 4 0 * scale) + idiv (qtrunc (mods.getD 2 0 * scale)) 2))) := by
  refine ⟨normRot_mem _, ?_, ?_⟩
  · intro hcond
    have hr : prim21Rect x y mods scale = some (mkRect
        (x + qtrunc (mods.getD 3 0 * scale) - idiv (qtrunc (mods.getD 2 0 * scale)) 2)
        (y - qtrunc (mods.getD 4 0 * scale) - idiv (qtrunc (mods.getD 1 0 * scale)) 2)
        (x + qtrunc (mods.getD 3 0 * scale) + idiv (qtrunc (mods.getD 2 0 * scale)) 2)
        (y - qtrunc (mods.getD 4 0 * scale) + idiv (qtrunc (mods.getD 1 0 * scale)) 2)) := by
      simp only [prim21Rect]
      rw [if_pos h, if_pos hcond]
    simp only [drawMacroPrim]
    rw [hr]
    norm_num
  · intro hcond
    have hr : prim21Rect x y mods scale = some (mkRect
        (x + qtrunc (mods.getD 3 0 * scale) - idiv (qtrunc (mods.getD 1 0 * scale)) 2)
        (y - qtrunc (mods.getD 4 0 * scale) - idiv (qtrunc (mods.getD 2 0 * scale)) 2)
        (x + qtrunc (mods.getD 3 0 * scale) + idiv (qtrunc (mods.getD 1 0 * scale)) 2)
        (y - qtrunc (mods.getD 4 0 * scale) + idiv (qtrunc (mods.getD 2 0 * scale)) 2)) := by
      simp only [prim21Rect]
      rw [if_pos h, if_neg hcond]
    simp only [drawMacroPrim]
    rw [hr]
    norm_num

/-- Witness for C9 at rotation 90 (swap) with width 2, height 1, scale 10. -/
theorem C9_witness :
    drawMacroPrim ⟨3, 3, []⟩ 0 0 ⟨21, [1, 2, 1, 0, 0, 90]⟩ 10 =
      fillRect ⟨3, 3, []⟩ (mkRect (-5) (-10) 5 10) := by
  have hq0 : qmod ((90 : ℚ)) 360 = 90 := by
    rw [qmod, qtrunc, if_pos (by norm_num)]
    norm_num
  have hn : normRot (([1, 2, 1, 0, 0, 90] : List ℚ).getD 5 0) = 90 := by
    rw [show (([1, 2, 1, 0, 0, 90] : List ℚ).getD 5 0) = 90 from rfl]
    simp only [normRot, hq0]
    rw [if_neg (by norm_num)]
  have h := (C9_prim21_rotation_swap ⟨3, 3, []⟩ 0 0 [1, 2, 1, 0, 0, 90] 10 (by simp)).2.1
    (by rw [hn]; norm_num)
  rw [h]
  rw [show (([1, 2, 1, 0, 0, 90] : List ℚ).getD 1 0) = 2 from rfl,
    show (([1, 2, 1, 0, 0, 90] : List ℚ).getD 2 0) = 1 from rfl,
    show (([1, 2, 1, 0, 0, 90] : List ℚ).getD 3 0) = 0 from rfl,
    show (([1, 2, 1, 0, 0, 90] : List ℚ).getD 4 0) = 0 from rfl]
  have e1 : qtrunc ((1 : ℚ) * 10) = 10 := by rw [qtrunc, if_pos (by norm_num)]; norm_num
  have e2 : qtrunc ((2 : ℚ) * 10) = 20 := by rw [qtrunc, if_pos (by norm_num)]; norm_num
  have e0 : qtrunc ((0 : ℚ) * 10) = 0 := by rw [qtrunc, if_pos (by norm_num)]; norm_num
  rw [e1, e2, e0]
  rw [show idiv 10 2 = 5 from by decide, show idiv 20 2 = 10 from by decide]
  norm_num

/-- C6: parsing never fails on any input text — every line list yields a
GerberFile, malformed lines being skipped (three unparsable lines leave the
file in its initial state); only an unreadable input (the I/O side, modelled
as an absent line list) is an error. -/
theorem C6_parse_total (lines : List (List Char)) :
    parseGerber (some lines) = Except.ok (parseGerberLines lines) ∧
    (parseGerber (some lines)).isOk = true ∧
    (parseGerber none).isOk = false ∧
    parseGerberLines ["garbage!!".toList, "%XY123*%".toList, "DX*".toList] = newGerberFile := by
  refine ⟨rfl, rfl, rfl, ?_⟩
  decide

theorem buildCoordCmd_type_move (fmtX fmtY : FormatSpec) :
    ∀ (ms : List (Char × List Char)) (cmd : GerberCommand), cmd.type = "MOVE" →
      (∀ m ∈ ms, m.1 = 'D' →
        qtrunc (goParseFloatOr0 m.2) ≠ 1 ∧ qtrunc (goParseFloatOr0 m.2) ≠ 2 ∧
        qtrunc (goParseFloatOr0 m.2) ≠ 3) →
      (ms.foldl (coordStep fmtX fmtY) cmd).type = "MOVE" := by
  intro ms
  induction ms with
  | nil => intro cmd h _; exact h
  | cons m rest ih =>
    intro cmd h hd
    rw [List.foldl_cons]
    apply ih
    · by_cases hx : m.1 = 'X'
      · simp only [coordStep, hx, if_true]
        exact h
      · by_cases hy : m.1 = 'Y'
        · simp only [coordStep, hx, hy, if_false, if_true]
          exact h
        · by_cases hD : m.1 = 'D'
          · have hne := hd m (by simp) hD
            simp only [coordStep, hx, hy, hD, if_false, if_true]
            rw [if_neg hne.1, if_neg hne.2.1, if_neg hne.2.2]
            exact h
          · simp only [coordStep, hx, hy, hD, if_false]
            exact h
    · intro m2 hm2 hD2
      exact hd m2 (by simp [hm2]) hD2

/-- C10: a coordinate statement whose operation code is absent, or truncates
to a value other than 1 (draw), 2 (move), 3 (flash), builds a command of MOVE
kind; at render time a MOVE command still updates the pen from its axis
values (omitted axes unchanged) and stamps nothing. -/
theorem C10_unknown_opcode_is_move (fmtX fmtY : FormatSpec) (ms : List (Char × List Char))
    (hd : ∀ m ∈ ms, m.1 = 'D' →
      qtrunc (goParseFloatOr0 m.2) ≠ 1 ∧ qtrunc (goParseFloatOr0 m.2) ≠ 2 ∧
      qtrunc (goParseFloatOr0 m.2) ≠ 3) :
    (buildCoordCmd fmtX fmtY ms).type = "MOVE" ∧
    (∀ (st : GerberState) (scale heightMM : ℚ) (b : Bounds) (acc : RenderAcc)
        (cmd : GerberCommand), cmd.type = "MOVE" →
      renderStep st scale heightMM b acc cmd =
        { acc with curX := cmd.x.getD acc.curX, curY := cmd.y.getD acc.curY }) := by
  constructor
  · exact buildCoordCmd_type_move fmtX fmtY ms ⟨"MOVE", none, none, none⟩ rfl hd
  · intro st scale heightMM b acc cmd h
    unfold renderStep
    simp [h]

/-- Witness for C10: `X100Y200D04` yields a MOVE that only moves the pen. -/
theorem C10_witness :
    (buildCoordCmd ⟨2, 4⟩ ⟨2, 4⟩ (reCoordMatches "X100Y200D04".toList)).type = "MOVE" ∧
    renderStep
      { apertures := [], macros := [], currentAperture := 0, x := 0, y := 0,
        formatX := ⟨2, 4⟩, formatY := ⟨2, 4⟩, units := "MM" }
      1 0 ⟨0, 0, 10, 10⟩ ⟨⟨10, 10, []⟩, 0, 0, 0⟩ ⟨"MOVE", some 5, none, some 4⟩
      = ⟨⟨10, 10, []⟩, 5, 0, 0⟩ := by
  have h := C10_unknown_opcode_is_move ⟨2, 4⟩ ⟨2, 4⟩ (reCoordMatches "X100Y200D04".toList)
    (by decide)
  constructor
  · exact h.1
  · have h2 := h.2
      { apertures := [], macros := [], currentAperture := 0, x := 0, y := 0,
        formatX := ⟨2, 4⟩, formatY := ⟨2, 4⟩, units := "MM" }
      1 0 ⟨0, 0, 10, 10⟩ ⟨⟨10, 10, []⟩, 0, 0, 0⟩ ⟨"MOVE", some 5, none, some 4⟩ rfl
    exact h2

theorem mem_intRange {a b x : Int} : x ∈ intRange a b ↔ a ≤ x ∧ x ≤ b := by
  constructor
  · intro h
    obtain ⟨i, hi, hx⟩ := List.mem_map.mp h
    rw [List.mem_range] at hi
    have hx' : a + (i : Int) = x := hx
    omega
  · intro h
    apply List.mem_map.mpr
    refine ⟨(x - a).toNat, ?_, ?_⟩
    · rw [List.mem_range]
      omega
    · show a + ((x - a).toNat : Int) = x
      omega

theorem mem_drawCirclePixels {x0 y0 r : Int} {p : Int × Int} :
    p ∈ drawCirclePixels x0 y0 r ↔
    ∃ dx dy : Int, (-r ≤ dx ∧ dx ≤ r) ∧ (-r ≤ dy ∧ dy ≤ r) ∧
      dx * dx + dy * dy ≤ r * r ∧ p = (x0 + dx, y0 + dy) := by
  unfold drawCirclePixels
  simp only [List.mem_flatMap, List.mem_filterMap, mem_intRange]
  constructor
  · rintro ⟨dy, hy, dx, hx, hif⟩
    by_cases hc : dx * dx + dy * dy ≤ r * r
    · rw [if_pos hc] at hif
      exact ⟨dx, dy, hx, hy, hc, (Option.some_inj.mp hif).symm⟩
    · rw [if_neg hc] at hif
      cases hif
  · rintro ⟨dx, dy, hx, hy, hc, rfl⟩
    exact ⟨dy, hy, dx, hx, by rw [if_pos hc]⟩

theorem sq_le_of_natAbs_le {a b : Int} (h : a.natAbs ≤ b.natAbs) : a * a ≤ b * b := by
  rw [← Int.natAbs_mul_self (a := a), ← Int.natAbs_mul_self (a := b)]
  exact_mod_cast Nat.mul_le_mul h h

theorem le_of_sq_le_sq {a b : Int} (hb : 0 ≤ b) (h : a * a ≤ b * b) : -b ≤ a ∧ a ≤ b := by
  constructor <;> nlinarith [mul_self_nonneg (a + b), mul_self_nonneg (a - b)]

theorem mem_disk_of_sq (x0 y0 r dx dy : Int) (hr : 0 ≤ r) (hc : dx * dx + dy * dy ≤ r * r) :
    (x0 + dx, y0 + dy) ∈ drawCirclePixels x0 y0 r := by
  have hx := le_of_sq_le_sq hr (by nlinarith [mul_self_nonneg dy] : dx * dx ≤ r * r)
  have hy := le_of_sq_le_sq hr (by nlinarith [mul_self_nonneg dx] : dy * dy ≤ r * r)
  exact mem_drawCirclePixels.mpr ⟨dx, dy, hx, hy, hc, rfl⟩

theorem center_mem_disk {x0 y0 r : Int} (hr : 0 ≤ r) :
    (x0, y0) ∈ drawCirclePixels x0 y0 r := by
  have h := mem_disk_of_sq x0 y0 r 0 0 hr (by nlinarith)
  simpa using h

theorem joined_mono {S T : List (Int × Int)} (hsub : ∀ p ∈ S, p ∈ T) {p q : Int × Int}
    (h : Joined S p q) : Joined T p q :=
  Relation.ReflTransGen.mono (fun a b hab => ⟨hsub _ hab.1, hsub _ hab.2.1, hab.2.2⟩) h

theorem joined_symm {S : List (Int × Int)} {p q : Int × Int} (h : Joined S p q) :
    Joined S q p := by
  induction h with
  | refl => exact Relation.ReflTransGen.refl
  | tail _ hbc ih =>
    obtain ⟨hm1, hm2, ha1, ha2⟩ := hbc
    exact Relation.ReflTransGen.head ⟨hm2, hm1, by omega, by omega⟩ ih

theorem disk_joined_aux (x0 y0 r : Int) (hr : 0 ≤ r) :
    ∀ (n : Nat) (dx dy : Int), dx.natAbs + dy.natAbs ≤ n →
      dx * dx + dy * dy ≤ r * r →
      Joined (drawCirclePixels x0 y0 r) (x0 + dx, y0 + dy) (x0, y0) := by
  intro n
  induction n with
  | zero =>
    intro dx dy hn hc
    have h0 : dx = 0 ∧ dy = 0 := by omega
    rw [h0.1, h0.2, add_zero, add_zero]
    exact Relation.ReflTransGen.refl
  | succ n ih =>
    intro dx dy hn hc
    by_cases hdx : dx = 0
    · by_cases hdy : dy = 0
      · subst hdx; subst hdy
        rw [add_zero, add_zero]
        exact Relation.ReflTransGen.refl
      · have hmem := mem_disk_of_sq x0 y0 r dx dy hr hc
        obtain ⟨dy', hshrink, habs⟩ :
            ∃ dy' : Int, dy'.natAbs + 1 = dy.natAbs ∧ (dy - dy').natAbs ≤ 1 := by
          rcases lt_or_gt_of_ne hdy with h | h
          · exact ⟨dy + 1, by omega, by omega⟩
          · exact ⟨dy - 1, by omega, by omega⟩
        have hsq : dy' * dy' ≤ dy * dy := sq_le_of_natAbs_le (by omega)
        have hc' : dx * dx + dy' * dy' ≤ r * r := by nlinarith
        have hmem' := mem_disk_of_sq x0 y0 r dx dy' hr hc'
        refine Relation.ReflTransGen.head ⟨hmem, hmem', ?_, ?_⟩ (ih dx dy' (by omega) hc')
        · simp
        · simp only
          omega
    · have hmem := mem_disk_of_sq x0 y0 r dx dy hr hc
      obtain ⟨dx', hshrink, habs⟩ :
          ∃ dx' : Int, dx'.natAbs + 1 = dx.natAbs ∧ (dx - dx').natAbs ≤ 1 := by
        rcases lt_or_gt_of_ne hdx with h | h
        · exact ⟨dx + 1, by omega, by omega⟩
        · exact ⟨dx - 1, by omega, by omega⟩
      have hsq : dx' * dx' ≤ dx * dx := sq_le_of_natAbs_le (by omega)
      have hc' : dx' * dx' + dy * dy ≤ r * r := by nlinarith
      have hmem' := mem_disk_of_sq x0 y0 r dx' dy hr hc'
      refine Relation.ReflTransGen.head ⟨hmem, hmem', ?_, ?_⟩ (ih dx' dy (by omega) hc')
      · simp only
        omega
      · simp

theorem disk_joined (x0 y0 r : Int) (hr : 0 ≤ r) :
    ∀ p ∈ drawCirclePixels x0 y0 r, Joined (drawCirclePixels x0 y0 r) p (x0, y0) := by
  intro p hp
  obtain ⟨dx, dy, _, _, hc, rfl⟩ := mem_drawCirclePixels.mp hp
  exact disk_joined_aux x0 y0 r hr (dx.natAbs + dy.natAbs) dx dy (le_refl _) hc

theorem qtrunc_mono {a b : ℚ} (h : a ≤ b) : qtrunc a ≤ qtrunc b := by
  unfold qtrunc
  rcases le_or_lt 0 a with ha | ha
  · rw [if_pos ha, if_pos (le_trans ha h)]
    exact Int.floor_le_floor h
  · rcases le_or_lt 0 b with hb | hb
    · rw [if_neg (not_le.mpr ha), if_pos hb]
      have h1 : ⌈a⌉ ≤ 0 := Int.ceil_le.mpr (by exact_mod_cast le_of_lt ha)
      have h2 : 0 ≤ ⌊b⌋ := Int.floor_nonneg.mpr hb
      omega
    · rw [if_neg (not_le.mpr ha), if_neg (not_le.mpr hb)]
      exact Int.ceil_le_ceil h

theorem qtrunc_gap {a b : ℚ} (h1 : a ≤ b) (h2 : b ≤ a + 1) : qtrunc b ≤ qtrunc a + 1 := by
  unfold qtrunc
  rcases le_or_lt 0 a with ha | ha
  · rw [if_pos ha, if_pos (le_trans ha h1)]
    have := Int.floor_le_floor h2
    rw [Int.floor_add_one] at this
    omega
  · rcases le_or_lt 0 b with hb | hb
    · rw [if_neg (not_le.mpr ha), if_pos hb]
      have h3 := Int.floor_le_floor h2
      rw [Int.floor_add_one] at h3
      have h4 := Int.floor_le_ceil a
      omega
    · rw [if_neg (not_le.mpr ha), if_neg (not_le.mpr hb)]
      have := Int.ceil_le_ceil h2
      rw [Int.ceil_add_one] at this
      omega

theorem qtrunc_adj {a b : ℚ} (h : |b - a| ≤ 1) : (qtrunc b - qtrunc a).natAbs ≤ 1 := by
  rw [abs_le] at h
  rcases le_total a b with hab | hab
  · have h1 := qtrunc_mono hab
    have h2 := qtrunc_gap hab (by linarith)
    omega
  · have h1 := qtrunc_mono hab
    have h2 := qtrunc_gap hab (by linarith)
    omega

theorem abs_le_lineSteps (x1 y1 x2 y2 : Int) :
    (x2 - x1).natAbs ≤ lineSteps x1 y1 x2 y2 ∧
    (y2 - y1).natAbs ≤ lineSteps x1 y1 x2 y2 := by
  unfold lineSteps
  have hx := Int.natAbs_mul_self (a := x2 - x1)
  have hy := Int.natAbs_mul_self (a := y2 - y1)
  have hxx : (0 : Int) ≤ (x2 - x1) * (x2 - x1) := mul_self_nonneg _
  have hyy : (0 : Int) ≤ (y2 - y1) * (y2 - y1) := mul_self_nonneg _
  constructor
  · apply Nat.le_sqrt.mpr
    omega
  · apply Nat.le_sqrt.mpr
    omega

theorem cast_natAbs_le {n : Nat} {a : Int} (h : a.natAbs ≤ n) : |(a : ℚ)| ≤ (n : ℚ) := by
  have h1 : |a| ≤ (n : Int) := by
    rw [Int.abs_eq_natAbs]
    exact_mod_cast h
  calc |(a : ℚ)| = ((|a| : Int) : ℚ) := by push_cast; rfl
    _ ≤ ((n : Int) : ℚ) := by exact_mod_cast h1
    _ = (n : ℚ) := by push_cast; rfl

theorem lineCenter_adj (x1 y1 x2 y2 : Int) (i : Nat)
    (hi : i + 1 ≤ lineSteps x1 y1 x2 y2) :
    adjPix (lineCenter x1 y1 x2 y2 i) (lineCenter x1 y1 x2 y2 (i + 1)) := by
  have hs0 : lineSteps x1 y1 x2 y2 ≠ 0 := by omega
  have hspos : (0 : ℚ) < ((lineSteps x1 y1 x2 y2 : Nat) : ℚ) := by
    exact_mod_cast Nat.pos_of_ne_zero hs0
  obtain ⟨hxb, hyb⟩ := abs_le_lineSteps x1 y1 x2 y2
  have key : ∀ (d : Int), d.natAbs ≤ lineSteps x1 y1 x2 y2 →
      |((x1 : ℚ) + ((i : ℚ) / ((lineSteps x1 y1 x2 y2 : Nat) : ℚ)) * (d : ℚ)) -
        ((x1 : ℚ) + (((i + 1 : Nat) : ℚ) / ((lineSteps x1 y1 x2 y2 : Nat) : ℚ)) * (d : ℚ))|
        ≤ 1 := by
    intro d hd
    have hstep : ((x1 : ℚ) + ((i : ℚ) / ((lineSteps x1 y1 x2 y2 : Nat) : ℚ)) * (d : ℚ)) -
        ((x1 : ℚ) + (((i + 1 : Nat) : ℚ) / ((lineSteps x1 y1 x2 y2 : Nat) : ℚ)) * (d : ℚ))
        = -((d : ℚ) / ((lineSteps x1 y1 x2 y2 : Nat) : ℚ)) := by
      push_cast
      field_simp
      ring
    rw [hstep, abs_neg, abs_div, abs_of_pos hspos, div_le_one hspos]
    exact cast_natAbs_le hd
  constructor
  · exact qtrunc_adj (by simpa using key (x2 - x1) hxb)
  · exact qtrunc_adj (by simpa using key (y2 - y1) hyb)

theorem lineCenter_zero (x1 y1 x2 y2 : Int) : lineCenter x1 y1 x2 y2 0 = (x1, y1) := by
  unfold lineCenter qtrunc
  norm_num

theorem mem_line_of_mem_disk {x1 y1 x2 y2 r : Int} {c p : Int × Int}
    (hc : c ∈ lineCenters x1 y1 x2 y2) (hp : p ∈ drawCirclePixels c.1 c.2 r) :
    p ∈ drawLineCirclePixels x1 y1 x2 y2 r := by
  unfold drawLineCirclePixels
  exact List.mem_flatMap.mpr ⟨c, hc, hp⟩

theorem lineCenter_mem_centers {x1 y1 x2 y2 : Int} {i : Nat}
    (hs : lineSteps x1 y1 x2 y2 ≠ 0) (hi : i ≤ lineSteps x1 y1 x2 y2) :
    lineCenter x1 y1 x2 y2 i ∈ lineCenters x1 y1 x2 y2 := by
  unfold lineCenters
  rw [if_neg hs]
  exact List.mem_map.mpr ⟨i, List.mem_range.mpr (by omega), rfl⟩

theorem lineCenter_joined_zero (x1 y1 x2 y2 r : Int) (hr : 0 ≤ r)
    (hs : lineSteps x1 y1 x2 y2 ≠ 0) :
    ∀ i, i ≤ lineSteps x1 y1 x2 y2 →
      Joined (drawLineCirclePixels x1 y1 x2 y2 r)
        (lineCenter x1 y1 x2 y2 i) (lineCenter x1 y1 x2 y2 0) := by
  intro i
  induction i with
  | zero => intro _; exact Relation.ReflTransGen.refl
  | succ i ih =>
    intro hi
    have hadj := lineCenter_adj x1 y1 x2 y2 i hi
    have hm1 : lineCenter x1 y1 x2 y2 (i + 1) ∈ drawLineCirclePixels x1 y1 x2 y2 r := by
      refine mem_line_of_mem_disk (lineCenter_mem_centers hs hi) ?_
      exact center_mem_disk hr
    have hm2 : lineCenter x1 y1 x2 y2 i ∈ drawLineCirclePixels x1 y1 x2 y2 r := by
      refine mem_line_of_mem_disk (lineCenter_mem_centers (i := i) hs (by omega)) ?_
      exact center_mem_disk hr
    refine Relation.ReflTransGen.head ⟨hm1, hm2, ?_⟩ (ih (by omega))
    unfold adjPix at hadj ⊢
    omega

theorem joined_to_center {x1 y1 x2 y2 r : Int} (hr : 0 ≤ r) {c p : Int × Int}
    (hc : c ∈ lineCenters x1 y1 x2 y2) (hp : p ∈ drawCirclePixels c.1 c.2 r) :
    Joined (drawLineCirclePixels x1 y1 x2 y2 r) p c := by
  have h := disk_joined c.1 c.2 r hr p hp
  exact joined_mono (fun q hq => mem_line_of_mem_disk hc hq) h

/-- C8: a draw with a circular aperture of pixel radius r ≥ 0 stamps the
aperture at one-pixel-spaced interpolated centers (a single stamp when the
endpoints coincide), and the stamped pixel region is 8-connected — any two
stamped pixels are joined by a path of Chebyshev-adjacent stamped pixels — for
every pair of endpoints, whatever their distance. -/
theorem C8_drawLine_connected (x1 y1 x2 y2 r : Int) (hr : 0 ≤ r) :
    ∀ p ∈ drawLineCirclePixels x1 y1 x2 y2 r,
    ∀ q ∈ drawLineCirclePixels x1 y1 x2 y2 r,
      Joined (drawLineCirclePixels x1 y1 x2 y2 r) p q := by
  have key : ∀ p ∈ drawLineCirclePixels x1 y1 x2 y2 r,
      Joined (drawLineCirclePixels x1 y1 x2 y2 r) p (x1, y1) := by
    intro p hp
    obtain ⟨c, hc, hpc⟩ := List.mem_flatMap.mp hp
    by_cases hs : lineSteps x1 y1 x2 y2 = 0
    · have hcs : c = (x1, y1) := by
        unfold lineCenters at hc
        rw [if_pos hs] at hc
        simpa using hc
      subst hcs
      exact joined_to_center hr hc hpc
    · unfold lineCenters at hc
      rw [if_neg hs] at hc
      obtain ⟨i, hi, rfl⟩ := List.mem_map.mp hc
      have hi' : i ≤ lineSteps x1 y1 x2 y2 := by
        rw [List.mem_range] at hi
        omega
      have h1 := joined_to_center hr (lineCenter_mem_centers hs hi') hpc
      have h2 := lineCenter_joined_zero x1 y1 x2 y2 r hr hs i hi'
      rw [lineCenter_zero] at h2
      exact Relation.ReflTransGen.trans h1 h2
  intro p hp q hq
  exact Relation.ReflTransGen.trans (key p hp) (joined_symm (key q hq))

/-- Witness for C8: a degenerate draw (coincident endpoints) with radius 1. -/
theorem C8_witness :
    Joined (drawLineCirclePixels 0 0 0 0 1) (0, 1) (1, 0) := by
  have hmem1 : ((0 : Int), (1 : Int)) ∈ drawLineCirclePixels 0 0 0 0 1 := by
    apply mem_line_of_mem_disk (c := ((0 : Int), (0 : Int)))
    · simp [lineCenters, lineSteps, Nat.sqrt]
    · exact mem_drawCirclePixels.mpr ⟨0, 1, by omega, by omega, by omega, rfl⟩
  have hmem2 : ((1 : Int), (0 : Int)) ∈ drawLineCirclePixels 0 0 0 0 1 := by
    apply mem_line_of_mem_disk (c := ((0 : Int), (0 : Int)))
    · simp [lineCenters, lineSteps, Nat.sqrt]
    · exact mem_drawCirclePixels.mpr ⟨1, 0, by omega, by omega, by omega, rfl⟩
  exact C8_drawLine_connected 0 0 0 0 1 (by omega) (0, 1) hmem1 (1, 0) hmem2

end PCB
